import Mathlib

/-!
# Verification of Pytman message containers

Shallow embedding of `src/pyttman/core/communication/models/containers.py`:
the `MessageMixin` content-normalization logic, the `Reply` message class and
the `ReplyStream` FIFO queue, together with theorems settling the frozen
claims about the natural-language specification.

Python values that can be passed as `content` are modelled by the inductive
type `Value`; Python exceptions by `PyErr`; fallible Python code by
`Except PyErr`.
-/

set_option autoImplicit false

namespace Pytman

/-- Python exception kinds that the embedded code can raise or mention.
`typeError` models `TypeError`, `valueError` models `ValueError`,
`indexError` models `IndexError` (raised by `deque.popleft` on an empty
deque, hence by `Queue._get` on an empty queue), `queueEmpty` models
`queue.Empty` (imported by the source module but never raised by it), and
`runtimeError` stands for any other exception an object's `__str__` or
`__repr__` may raise. -/
inductive PyErr where
  | typeError
  | valueError
  | indexError
  | queueEmpty
  | runtimeError
  deriving DecidableEq, Repr

/-- Dynamic Python values that may be passed as the `content` argument of
`MessageMixin.__init__` (and stored as instance attributes).

* `vnone` — `None`;
* `vstr` — a `str`;
* `vlist` / `vtuple` — a `list` / `tuple` of arbitrary elements;
* `vdict` — a `dict` as an ordered list of key/value pairs;
* `vobj reprRes strRes` — an arbitrary object whose `repr(...)` yields
  `reprRes` and whose `str(...)` yields `strRes` (an `.error` result models
  the call raising); this covers both objects using the default
  `__str__ = __repr__` and objects with a separately defined `__str__`;
* `vtime` — an opaque `datetime` timestamp (only ever stored in the
  `created` attribute; its textual form is irrelevant to every claim). -/
inductive Value where
  | vnone
  | vstr (s : String)
  | vlist (xs : List Value)
  | vtuple (xs : List Value)
  | vdict (kvs : List (Value × Value))
  | vobj (reprRes : Except PyErr String) (strRes : Except PyErr String)
  | vtime (t : Nat)

/-- Python's notion of whitespace for `str.split()` / `str.isspace()`:
ASCII whitespace, the ASCII separator controls, NEL, and the Unicode space
separators. -/
def pyIsSpace (c : Char) : Bool :=
  c = ' ' || c = '\t' || c = '\n' || c = '\r' ||
  c.val = 0x0b || c.val = 0x0c ||
  c.val = 0x1c || c.val = 0x1d || c.val = 0x1e || c.val = 0x1f ||
  c.val = 0x85 || c.val = 0xa0 || c.val = 0x1680 ||
  (0x2000 ≤ c.val && c.val ≤ 0x200a) ||
  c.val = 0x2028 || c.val = 0x2029 || c.val = 0x202f ||
  c.val = 0x205f || c.val = 0x3000

/-- Helper for `pysplit`: walk the characters, accumulating the current
token in `acc` (reversed); whitespace ends the current token, and empty
tokens are discarded, exactly as Python's `str.split()` with no
argument. -/
def splitAux : List Char → List Char → List String
  | [], acc => if acc.isEmpty then [] else [String.mk acc.reverse]
  | c :: cs, acc =>
    if pyIsSpace c then
      if acc.isEmpty then splitAux cs []
      else String.mk acc.reverse :: splitAux cs []
    else
      splitAux cs (c :: acc)

/-- Python `s.split()`: split on runs of whitespace, discarding empty
tokens. -/
def pysplit (s : String) : List String :=
  splitAux s.data []

/-- Python's line-boundary characters for `str.splitlines`:
LF, CR, VT, FF, FS, GS, RS, NEL, LINE SEPARATOR, PARAGRAPH SEPARATOR
(CRLF is handled as a single boundary by `slAux`). -/
def isLineBreak (c : Char) : Bool :=
  c = '\n' || c = '\r' ||
  c.val = 0x0b || c.val = 0x0c ||
  c.val = 0x1c || c.val = 0x1d || c.val = 0x1e ||
  c.val = 0x85 || c.val = 0x2028 || c.val = 0x2029

/-- Helper for `splitlinesKeep`, at the level of character lists: `acc`
holds the current line (reversed). A `"\r\n"` pair is one boundary; every
line keeps its terminator, as with `keepends=True`. -/
def slAux : List Char → List Char → List (List Char)
  | [], [] => []
  | [], acc => [acc.reverse]
  | c :: cs, acc =>
    if isLineBreak c then
      if c = '\r' && cs.head? = some '\n' then
        (acc.reverse ++ [c, '\n']) :: slAux cs.tail []
      else
        (acc.reverse ++ [c]) :: slAux cs []
    else slAux cs (c :: acc)
termination_by cs _ => cs.length
decreasing_by
  · simp [List.length_tail]
    omega
  · simp
  · simp

/-- Python `s.splitlines(keepends=True)`. -/
def splitlinesKeep (s : String) : List String :=
  (slAux s.data []).map String.mk

/-- Python `repr` of a `str`: the text between quotes. The exact escaping
rules of quote and control characters are not modelled; no claim depends on
them. -/
def reprStr (s : String) : String :=
  "\x27" ++ s ++ "\x27"

mutual

/-- Python `repr(v)`; `.error e` models the call raising `e`. Containers
render their elements with `repr`, exactly as CPython does. -/
def pyRepr : Value → Except PyErr String
  | .vnone => .ok "None"
  | .vstr s => .ok (reprStr s)
  | .vlist xs => do
    let rs ← pyReprList xs
    .ok ("[" ++ String.intercalate ", " rs ++ "]")
  | .vtuple xs => do
    let rs ← pyReprList xs
    .ok ("(" ++ String.intercalate ", " rs ++ (if rs.length = 1 then ",)" else ")"))
  | .vdict kvs => do
    let rs ← pyReprPairs kvs
    .ok ("\x7b" ++ String.intercalate ", " rs ++ "\x7d")
  | .vobj reprRes _ => reprRes
  | .vtime t => .ok ("datetime(" ++ toString t ++ ")")

/-- `repr` of each element of a list, propagating the first raise. -/
def pyReprList : List Value → Except PyErr (List String)
  | [] => .ok []
  | v :: vs => do
    let r ← pyRepr v
    let rs ← pyReprList vs
    .ok (r :: rs)

/-- `"key: value"` rendering of each dict entry, propagating raises. -/
def pyReprPairs : List (Value × Value) → Except PyErr (List String)
  | [] => .ok []
  | (k, v) :: kvs => do
    let rk ← pyRepr k
    let rv ← pyRepr v
    let rs ← pyReprPairs kvs
    .ok ((rk ++ ": " ++ rv) :: rs)

end

/-- Python `str(v)`; `.error e` models the call raising `e`. A `str` is
returned as-is; `None` renders as `"None"`; containers fall back to their
`repr`; an arbitrary object yields its (possibly raising) `strRes`. -/
def pyStr : Value → Except PyErr String
  | .vnone => .ok "None"
  | .vstr s => .ok s
  | .vlist xs => pyRepr (.vlist xs)
  | .vtuple xs => pyRepr (.vtuple xs)
  | .vdict kvs => pyRepr (.vdict kvs)
  | .vobj _ strRes => strRes
  | .vtime t => pyRepr (.vtime t)

/-- The `content` property setter of `MessageMixin`
(`containers.py`, lines 46-62), which computes the list of strings stored
in `self._content`:

* `None` becomes `["None"]`;
* a `str` is whitespace-split;
* a `list` or `tuple` becomes `[str(i) for i in val]` — note an element
  whose `str` raises propagates its own exception, uncaught;
* a `dict` becomes `str(val).split()` — a raise inside `str` propagates;
* any other value: `repr(val).split()`, and if `repr` raises anything, the
  setter raises `TypeError`. -/
def contentSetter : Value → Except PyErr (List String)
  | .vnone => .ok ["None"]
  | .vstr s => .ok (pysplit s)
  | .vlist xs => xs.mapM pyStr
  | .vtuple xs => xs.mapM pyStr
  | .vdict kvs => do
    let s ← pyStr (.vdict kvs)
    .ok (pysplit s)
  | v => match pyRepr v with
    | .ok s => .ok (pysplit s)
    | .error _ => .error .typeError

/-- The dynamic value that the `content` setter stores in `self._content`:
always a Python `list` whose elements are `str`. -/
def contentSetterDyn (v : Value) : Except PyErr Value :=
  (contentSetter v).map (fun ts => .vlist (ts.map .vstr))

/-- A constructed `MessageMixin` instance: the core attributes set by
`__init__`. `content` is the token list stored in `_content`;
`content_with_format` is `None` (here `none`) only when
`str(content).splitlines(keepends=True)` raised a `ValueError`. The open
kwargs extension point is modelled separately by `mkMessageAttrs`. -/
structure MessageMixin where
  author : String
  created : Nat
  client : Option Value
  content : List String
  content_with_format : Option (List String)

/-- `MessageMixin.__init__(content)` (lines 23-35, kwargs handled by
`mkMessageAttrs`): sets the defaults, runs the `content` property setter,
then computes `content_with_format = str(content).splitlines(keepends=True)`
catching only `ValueError`; any other exception from `str(content)`
propagates and construction fails. `now` stands for `datetime.now()`. -/
def mkMessage (now : Nat) (content : Value) : Except PyErr MessageMixin :=
  match contentSetter content with
  | .error e => .error e
  | .ok ts =>
    match pyStr content with
    | .ok s =>
      .ok { author := "anonymous", created := now, client := none,
            content := ts, content_with_format := some (splitlinesKeep s) }
    | .error .valueError =>
      .ok { author := "anonymous", created := now, client := none,
            content := ts, content_with_format := none }
    | .error e => .error e

/-- `re.sub(r"[^\w\s]", "", tok)`: keep word characters and whitespace.
`Char.isAlphanum` approximates Unicode word characters; no claim exercises
non-ASCII tokens. -/
def stripSymbols (tok : String) : String :=
  String.mk (tok.data.filter (fun c => c.isAlphanum || c = '_' || pyIsSpace c))

/-- `MessageMixin.sanitized_content(preserve_case)` (lines 65-79). -/
def sanitized_content (m : MessageMixin) (preserve_case : Bool) : List String :=
  m.content.map (fun tok =>
    let s := stripSymbols tok
    if preserve_case then s else s.toLower)

/-- `MessageMixin.lowered_content()` (lines 81-86). -/
def lowered_content (m : MessageMixin) : List String :=
  m.content.map String.toLower

/-- `MessageMixin.as_str(sanitized)` (lines 88-98): when `sanitized`, join
the sanitized tokens with spaces; otherwise, if `content_with_format` is
not `None`, concatenate its lines verbatim; otherwise join the tokens with
spaces. -/
def as_str (m : MessageMixin) (sanitized : Bool) : String :=
  if sanitized then
    String.intercalate " " (sanitized_content m false)
  else
    match m.content_with_format with
    | some lines => String.join lines
    | none => String.intercalate " " m.content

/-- `MessageMixin.as_list(sanitized)` (lines 100-112): `content` is always a
list, so the list branch returns it (sanitized or not). -/
def as_list (m : MessageMixin) (sanitized : Bool) : List String :=
  if sanitized then sanitized_content m false else m.content

/-! ## ReplyStream

`Reply` subclasses `MessageMixin` without extending it, so a `Reply`
instance is a `MessageMixin` value. A payload sitting in the queue is
either an already-constructed `Reply` or an arbitrary raw value. -/

/-- An element held by a `ReplyStream`: an already-constructed `Reply`
instance, or any other Python value. -/
inductive QItem where
  | reply (m : MessageMixin)
  | raw (v : Value)

/-- The internal deque of a `ReplyStream` (head = front), as maintained by
`Queue._put` / `Queue._get`. -/
abbrev ReplyStream := List QItem

/-- `ReplyStream.__init__(collection)` (lines 148-151): `super().__init__()`
creates an empty queue; then `map(self._put, collection)` builds a lazy map
iterator over the collection which is discarded without ever being
iterated, so `_put` never runs and no element is enqueued: the queue stays
empty whatever the collection holds. -/
def mkReplyStream (collection : Option (List QItem)) : ReplyStream :=
  match collection with
  | none => []
  | some _ => []

/-- `Queue.put(item)` on an unbounded queue: append the item at the tail. -/
def replyStream_put (q : ReplyStream) (item : QItem) : ReplyStream :=
  q ++ [item]

/-- `ReplyStream.get(block, timeout)` (lines 153-158): calls `self._get()`
directly — `block` and `timeout` are accepted but never consulted, no lock
is taken and no wait happens. `Queue._get` is `self.queue.popleft()`, which
raises `IndexError` when the deque is empty. The popped element is returned
unchanged when it is already a `Reply`, otherwise it is wrapped as
`Reply(element)` (whose construction may itself raise). `now` stands for
`datetime.now()` inside that `Reply` construction. Returns the retrieved
message together with the remaining queue. -/
def replyStream_get (now : Nat) (q : ReplyStream) (block : Bool)
    (timeout : Option Nat) : Except PyErr (MessageMixin × ReplyStream) :=
  match q with
  | [] => .error .indexError
  | item :: rest =>
    match item with
    | .reply m => .ok (m, rest)
    | .raw v => (mkMessage now v).map (fun m => (m, rest))

/-- The coercion `ReplyStream.get` applies to a popped element:
an existing `Reply` is returned unchanged, anything else becomes
`Reply(element)`. -/
def wrapItem (now : Nat) : QItem → Except PyErr MessageMixin
  | .reply m => .ok m
  | .raw v => mkMessage now v

/-- `n` successive `ReplyStream.get(block=True)` calls, collecting the
retrieved replies in order and propagating the first raise. -/
def drainN (now : Nat) : Nat → ReplyStream → Except PyErr (List MessageMixin × ReplyStream)
  | 0, q => .ok ([], q)
  | n + 1, q =>
    match replyStream_get now q true none with
    | .error e => .error e
    | .ok (m, q1) =>
      match drainN now n q1 with
      | .error e => .error e
      | .ok (ms, q2) => .ok (m :: ms, q2)

/-- Each payload of a list wrapped by the `get` coercion, in order,
propagating the first raise: the expected result of draining a queue that
holds exactly these payloads. -/
def wrapAll (now : Nat) : List QItem → Except PyErr (List MessageMixin)
  | [] => .ok []
  | p :: ps =>
    match wrapItem now p with
    | .error e => .error e
    | .ok m =>
      match wrapAll now ps with
      | .error e => .error e
      | .ok ms => .ok (m :: ms)

/-! ## Dynamic attribute model of `__init__`

`MessageMixin.__init__` ends with `setattr(self, k, v)` for every keyword
argument, after the core attributes are assigned. Since `content` is a
property, `setattr(self, "content", v)` runs the property setter (storing
into `_content`); every other name is stored directly. The instance's
attribute dictionary is modelled as an association list where the most
recent assignment shadows earlier ones. -/

/-- The instance attribute store: most recent assignment first. -/
abbrev Attrs := List (String × Value)

/-- Plain attribute write (`object.__setattr__`). -/
def setAttrRaw (a : Attrs) (k : String) (v : Value) : Attrs :=
  (k, v) :: a

/-- Attribute read: the most recently written value, if any. -/
def getAttr (a : Attrs) (k : String) : Option Value :=
  (a.find? (fun kv => kv.1 == k)).map (fun kv => kv.2)

/-- `setattr(self, k, v)` on a `MessageMixin` instance: the name `content`
hits the property setter (which normalizes `v` into `_content` and may
raise); every other name is written directly. -/
def pySetattr (a : Attrs) (k : String) (v : Value) : Except PyErr Attrs :=
  if k = "content" then
    (contentSetterDyn v).map (fun stored => setAttrRaw a "_content" stored)
  else
    .ok (setAttrRaw a k v)

/-- One `setattr(self, k, v)` step of the kwargs loop. -/
def pySetattrStep (acc : Attrs) (kv : String × Value) : Except PyErr Attrs :=
  pySetattr acc kv.1 kv.2

/-- The kwargs loop of `__init__`: `for k, v in kwargs.items():
setattr(self, k, v)`, in iteration order. -/
def applyKwargs (kwargs : List (String × Value)) (a : Attrs) : Except PyErr Attrs :=
  kwargs.foldlM pySetattrStep a

/-- The first three assignments of `__init__`: `author`, `created`,
`client`. -/
def initCoreAttrs (now : Nat) : Attrs :=
  setAttrRaw (setAttrRaw (setAttrRaw [] "author" (.vstr "anonymous"))
    "created" (.vtime now)) "client" .vnone

/-- `MessageMixin.__init__(content, **kwargs)` (lines 23-35) at the level
of the attribute store, in source order: `author`, `created`, `client`,
the `content` property assignment, `content_with_format` (catching only
`ValueError` from `str(content)`), then `setattr(self, k, v)` for each
keyword argument in iteration order. Python dict kwargs have pairwise
distinct keys; theorems assume that where it matters. -/
def mkMessageAttrs (now : Nat) (content : Value) (kwargs : List (String × Value)) :
    Except PyErr Attrs :=
  match pySetattr (initCoreAttrs now) "content" content with
  | .error e => .error e
  | .ok a =>
    match pyStr content with
    | .ok s =>
      applyKwargs kwargs
        (setAttrRaw a "content_with_format" (.vlist ((splitlinesKeep s).map .vstr)))
    | .error .valueError => applyKwargs kwargs (setAttrRaw a "content_with_format" .vnone)
    | .error e => .error e

/-! ## Helper lemmas -/

theorem string_foldl_append_data (l : List String) (init : String) :
    (l.foldl (fun a b => a ++ b) init).data = init.data ++ (l.map String.data).flatten := by
  induction l generalizing init with
  | nil => simp
  | cons s l ih => simp [List.foldl_cons, ih, String.data_append]

theorem string_join_data (l : List String) :
    (String.join l).data = (l.map String.data).flatten := by
  simpa [String.join] using string_foldl_append_data l ""

theorem slAux_flatten (cs acc : List Char) :
    (slAux cs acc).flatten = acc.reverse ++ cs := by
  induction cs, acc using slAux.induct with
  | case1 => simp [slAux]
  | case2 => simp [slAux]
  | case3 c cs acc h1 h2 ih =>
    rw [slAux]
    simp only [h1, h2, if_true]
    cases cs with
    | nil => simp_all
    | cons cn cs2 =>
      simp only [List.head?] at h2
      simp_all
  | case4 c cs acc h1 h2 ih =>
    rw [slAux]
    simp only [h1, if_true]
    split
    · next hcond =>
      exact absurd (by simpa using hcond) (by simpa using h2)
    · simp_all
  | case5 c cs acc h1 ih => rw [slAux]; simp_all

/-- Concatenating the lines of `splitlinesKeep` reconstructs the original
string: the terminators are all retained. -/
theorem splitlinesKeep_join (s : String) : String.join (splitlinesKeep s) = s := by
  apply String.ext
  rw [string_join_data]
  have hmk : ∀ l : List (List Char), (l.map String.mk).map String.data = l := by
    intro l; induction l <;> simp_all
  calc ((splitlinesKeep s).map String.data).flatten
      = (slAux s.data []).flatten := by rw [splitlinesKeep, hmk]
    _ = s.data := by rw [slAux_flatten]; rfl

/-- `str.split()` returns at least one token when the accumulator is
non-empty or some remaining character is not whitespace. -/
theorem splitAux_ne_nil (cs acc : List Char)
    (h : acc ≠ [] ∨ cs.any (fun c => ! pyIsSpace c) = true) :
    splitAux cs acc ≠ [] := by
  induction cs generalizing acc with
  | nil =>
    cases acc with
    | nil => simp_all
    | cons a as => simp [splitAux]
  | cons c cs ih =>
    rw [splitAux]
    by_cases hsp : pyIsSpace c
    · simp only [hsp, if_true]
      cases acc with
      | nil =>
        simp only [List.isEmpty_nil, if_true]
        apply ih
        rcases h with h | h
        · exact absurd rfl h
        · right; simpa [hsp] using h
      | cons a as => simp
    · simp only [hsp, if_false]
      exact ih (c :: acc) (Or.inl (by simp))

/-- Closed form of constructing a message from a string. -/
theorem mkMessage_vstr (now : Nat) (s : String) :
    mkMessage now (.vstr s) =
      .ok { author := "anonymous", created := now, client := none,
            content := pysplit s, content_with_format := some (splitlinesKeep s) } := rfl

theorem getAttr_setAttrRaw_eq (a : Attrs) (k : String) (v : Value) :
    getAttr (setAttrRaw a k v) k = some v := by
  simp [getAttr, setAttrRaw]

theorem getAttr_setAttrRaw_ne (a : Attrs) (k k2 : String) (v : Value) (h : k2 ≠ k) :
    getAttr (setAttrRaw a k2 v) k = getAttr a k := by
  simp [getAttr, setAttrRaw, List.find?_cons, h]

/-- A successful `pySetattr` writes either its own key, or `_content` when
the key is `content`; every other attribute is untouched. -/
theorem getAttr_pySetattr_ne (a a2 : Attrs) (k k2 : String) (v : Value)
    (hset : pySetattr a k2 v = .ok a2) (hk : k2 ≠ k) (hc : k ≠ "_content") :
    getAttr a2 k = getAttr a k := by
  unfold pySetattr at hset
  by_cases hcontent : k2 = "content"
  · rw [if_pos hcontent] at hset
    cases hdyn : contentSetterDyn v with
    | error e => rw [hdyn] at hset; cases hset
    | ok stored =>
      rw [hdyn] at hset
      simp only [Except.map] at hset
      injection hset with hset
      subst hset
      exact getAttr_setAttrRaw_ne a k "_content" stored (fun he => hc he.symm)
  · rw [if_neg hcontent] at hset
    injection hset with hset
    subst hset
    exact getAttr_setAttrRaw_ne a k k2 v hk

theorem applyKwargs_preserve (kwargs : List (String × Value)) (a a2 : Attrs) (k : String)
    (h : applyKwargs kwargs a = .ok a2)
    (hmem : ∀ kv ∈ kwargs, kv.1 ≠ k) (hc : k ≠ "_content") :
    getAttr a2 k = getAttr a k := by
  induction kwargs generalizing a with
  | nil =>
    simp only [applyKwargs, List.foldlM_nil] at h
    injection h with h
    rw [h]
  | cons kv rest ih =>
    simp only [applyKwargs, List.foldlM_cons] at h
    cases hset : pySetattrStep a kv with
    | error e => rw [hset] at h; cases h
    | ok a1 =>
      rw [hset] at h
      have h1 : getAttr a1 k = getAttr a k :=
        getAttr_pySetattr_ne a a1 k kv.1 kv.2 hset (hmem kv (by simp)) hc
      have h2 : getAttr a2 k = getAttr a1 k :=
        ih a1 h (fun kv2 hm => hmem kv2 (by simp [hm]))
      rw [h2, h1]

theorem applyKwargs_mem (kwargs : List (String × Value)) (a a2 : Attrs)
    (k : String) (v : Value)
    (h : applyKwargs kwargs a = .ok a2)
    (hnd : (kwargs.map Prod.fst).Nodup)
    (hmem : (k, v) ∈ kwargs) (hk : k ≠ "content") (hc : k ≠ "_content") :
    getAttr a2 k = some v := by
  induction kwargs generalizing a with
  | nil => cases hmem
  | cons kv rest ih =>
    simp only [applyKwargs, List.foldlM_cons] at h
    cases hset : pySetattrStep a kv with
    | error e => rw [hset] at h; cases h
    | ok a1 =>
      rw [hset] at h
      rcases List.mem_cons.mp hmem with heq | htail
      · subst heq
        have hsetraw : a1 = setAttrRaw a k v := by
          unfold pySetattrStep pySetattr at hset
          rw [if_neg hk] at hset
          injection hset with hset
          exact hset.symm
        have hrest : ∀ kv2 ∈ rest, kv2.1 ≠ k := by
          intro kv2 hm
          have := (List.nodup_cons.mp hnd).1
          intro hcontra
          exact this (by simpa [hcontra] using List.mem_map_of_mem Prod.fst hm)
        rw [applyKwargs_preserve rest a1 a2 k h hrest hc, hsetraw,
          getAttr_setAttrRaw_eq]
      · exact ih a1 h (List.nodup_cons.mp hnd).2 htail

theorem mkReplyStream_empty (c : Option (List QItem)) : mkReplyStream c = [] := by
  cases c <;> rfl

theorem replyStream_get_cons (now : Nat) (x : QItem) (rest : ReplyStream)
    (b : Bool) (t : Option Nat) :
    replyStream_get now (x :: rest) b t = (wrapItem now x).map (fun m => (m, rest)) := by
  cases x <;> rfl

theorem foldl_put (ps : List QItem) (q : ReplyStream) :
    ps.foldl replyStream_put q = q ++ ps := by
  induction ps generalizing q with
  | nil => simp
  | cons p ps ih => simp [List.foldl_cons, replyStream_put, ih]

theorem drainN_length (now : Nat) (ps : List QItem) :
    drainN now ps.length ps = (wrapAll now ps).map (fun ms => (ms, ([] : ReplyStream))) := by
  induction ps with
  | nil => rfl
  | cons p ps ih =>
    show drainN now (ps.length + 1) (p :: ps) = _
    rw [drainN, replyStream_get_cons]
    cases h1 : wrapItem now p with
    | error e => simp [wrapAll, h1, Except.map]
    | ok m =>
      cases h2 : wrapAll now ps with
      | error e => simp [wrapAll, h1, h2, Except.map, ih]
      | ok ms => simp [wrapAll, h1, h2, Except.map, ih]

/-! ## Claims -/

/-- C1: the claim states that creating a `ReplyBuffer` from a finite
iterable enqueues every element in order; the code instead builds a lazy
`map(self._put, collection)` that is never iterated, so the buffer created
from any non-empty collection is empty and an immediate `get` fails. -/
theorem C1_init_never_enqueues (now : Nat) (x : QItem) (c : List QItem)
    (b : Bool) (t : Option Nat) :
    mkReplyStream (some (x :: c)) = [] ∧
    replyStream_get now (mkReplyStream (some (x :: c))) b t = .error .indexError :=
  ⟨rfl, rfl⟩

/-- C2: `get(block=False)` on an empty buffer does fail immediately, but
with `IndexError` (from `deque.popleft`), not with the `Empty`
buffer-empty signal the claim names. -/
theorem C2_get_nonblocking_raises_indexError :
    replyStream_get 0 (mkReplyStream none) false none = .error .indexError ∧
    PyErr.indexError ≠ PyErr.queueEmpty :=
  ⟨rfl, by decide⟩

/-- C3: `get` never suspends: whatever `block` and `timeout` are passed,
the call on an empty buffer returns at once with `IndexError`, never with
the `Empty` signal and never after waiting. -/
theorem C3_get_ignores_block_and_timeout (now : Nat) (b : Bool) (t : Option Nat) :
    replyStream_get now (mkReplyStream none) b t = .error .indexError ∧
    PyErr.indexError ≠ PyErr.queueEmpty :=
  ⟨rfl, by decide⟩

/-- C4: `n` puts followed by `n` gets return the payloads in FIFO order,
each coerced by `get`: an element that is already a `Reply` comes back
unchanged, any other element comes back as `Reply(element)`. -/
theorem C4_fifo_order_and_wrapping (now : Nat) (ps : List QItem) :
    drainN now ps.length (ps.foldl replyStream_put (mkReplyStream none)) =
      (wrapAll now ps).map (fun ms => (ms, ([] : ReplyStream))) := by
  rw [mkReplyStream_empty, foldl_put, List.nil_append]
  exact drainN_length now ps

/-- C5: whenever the `content` setter succeeds, the stored `_content` is a
Python list whose elements are all strings — never `None` and never the
raw non-string input. -/
theorem C5_tokens_always_list_of_strings (v r : Value)
    (h : contentSetterDyn v = .ok r) :
    (∃ ts : List String, r = .vlist (ts.map Value.vstr)) ∧ r ≠ .vnone := by
  unfold contentSetterDyn at h
  cases hc : contentSetter v with
  | error e => rw [hc] at h; cases h
  | ok ts =>
    rw [hc] at h
    simp only [Except.map] at h
    injection h with h
    subst h
    exact ⟨⟨ts, rfl⟩, fun hcon => Value.noConfusion hcon⟩

theorem C5_tokens_always_list_of_strings_witness :
    contentSetterDyn (.vstr "hello   world") =
      .ok (.vlist [.vstr "hello", .vstr "world"]) ∧
    ((∃ ts : List String,
        Value.vlist [Value.vstr "hello", Value.vstr "world"] = .vlist (ts.map Value.vstr)) ∧
      Value.vlist [Value.vstr "hello", Value.vstr "world"] ≠ .vnone) :=
  ⟨rfl, C5_tokens_always_list_of_strings (.vstr "hello   world")
    (.vlist [.vstr "hello", .vstr "world"]) rfl⟩

/-- C6 counterexample: the single-space string is a non-empty input, yet
the constructed message has zero tokens (`" ".split()` is empty). -/
theorem C6_counterexample_whitespace_string :
    mkMessage 0 (.vstr " ") =
      .ok { author := "anonymous", created := 0, client := none,
            content := [], content_with_format := some [" "] } ∧
    (" " : String) ≠ "" := by
  refine ⟨?_, by decide⟩
  simp +decide [mkMessage, contentSetter, pyStr, pysplit, splitAux, pyIsSpace,
    splitlinesKeep, slAux, isLineBreak]

/-- C6 as amended: a string input containing at least one non-whitespace
character yields at least one token; only whitespace-only (or empty)
strings collapse to zero tokens. -/
theorem C6_nonwhitespace_string_has_tokens (now : Nat) (s : String) (m : MessageMixin)
    (hs : s.data.any (fun c => ! pyIsSpace c) = true)
    (h : mkMessage now (.vstr s) = .ok m) : m.content ≠ [] := by
  rw [mkMessage_vstr] at h
  injection h with h
  subst h
  exact splitAux_ne_nil s.data [] (Or.inr hs)

theorem C6_nonwhitespace_string_has_tokens_witness :
    "hi".data.any (fun c => ! pyIsSpace c) = true ∧
    mkMessage 0 (.vstr "hi") =
      .ok { author := "anonymous", created := 0, client := none,
            content := ["hi"], content_with_format := some (splitlinesKeep "hi") } ∧
    (["hi"] : List String) ≠ [] :=
  ⟨by decide, rfl, C6_nonwhitespace_string_has_tokens 0 "hi" _ (by decide) rfl⟩

/-- C7 counterexample: constructing from `None` — not a string — still sets
`content_with_format` (to `["None"]`, the kept-ends lines of
`str(None)`), contradicting the claim that it is unset for every
non-string input. -/
theorem C7_counterexample_none_input_sets_format :
    mkMessage 0 Value.vnone =
      .ok { author := "anonymous", created := 0, client := none,
            content := ["None"], content_with_format := some ["None"] } ∧
    (some ["None"] : Option (List String)) ≠ none := by
  refine ⟨?_, by decide⟩
  simp +decide [mkMessage, contentSetter, pyStr, pysplit, splitAux, pyIsSpace,
    splitlinesKeep, slAux, isLineBreak]

/-- C7 as amended: for every successfully constructed message — whatever
the input shape — `content_with_format` holds the kept-ends lines of
`str(content)`; it is left unset only when `str(content)` raises
`ValueError`. For string input these are the string's own lines. -/
theorem C7_format_lines_of_str (now : Nat) (v : Value) (m : MessageMixin)
    (h : mkMessage now v = .ok m) :
    (∃ s, pyStr v = .ok s ∧ m.content_with_format = some (splitlinesKeep s)) ∨
    (pyStr v = .error .valueError ∧ m.content_with_format = none) := by
  unfold mkMessage at h
  cases hc : contentSetter v with
  | error e => rw [hc] at h; cases h
  | ok ts =>
    rw [hc] at h
    cases hs : pyStr v with
    | ok s =>
      rw [hs] at h
      injection h with h
      subst h
      exact Or.inl ⟨s, rfl, rfl⟩
    | error e =>
      rw [hs] at h
      cases e with
      | valueError =>
        injection h with h
        subst h
        exact Or.inr ⟨rfl, rfl⟩
      | typeError => cases h
      | indexError => cases h
      | queueEmpty => cases h
      | runtimeError => cases h

theorem C7_format_lines_of_str_witness :
    mkMessage 0 (.vstr "a\nb") =
      .ok { author := "anonymous", created := 0, client := none,
            content := ["a", "b"], content_with_format := some (splitlinesKeep "a\nb") } ∧
    ((∃ s, pyStr (Value.vstr "a\nb") = .ok s ∧
        (some (splitlinesKeep "a\nb") : Option (List String)) = some (splitlinesKeep s)) ∨
      (pyStr (Value.vstr "a\nb") = .error .valueError ∧
        (some (splitlinesKeep "a\nb") : Option (List String)) = none)) :=
  ⟨rfl, C7_format_lines_of_str 0 (.vstr "a\nb")
    { author := "anonymous", created := 0, client := none,
      content := ["a", "b"], content_with_format := some (splitlinesKeep "a\nb") } rfl⟩

/-- C8 counterexample: an object whose `repr` succeeds but whose `str`
raises a non-`ValueError` exception makes construction fail with that
exception — `RuntimeError` here — not with `TypeError`, refuting "no other
error kind is raised by construction". -/
theorem C8_counterexample_str_failure_propagates :
    mkMessage 0 (.vobj (.ok "x") (.error .runtimeError)) = .error .runtimeError ∧
    PyErr.runtimeError ≠ PyErr.typeError :=
  ⟨rfl, by decide⟩

/-- C8 as amended: a fallback-branch value (arbitrary object) whose `repr`
cannot be produced fails immediately with `TypeError` and no instance is
produced; but other exceptions — e.g. a non-`ValueError` raise from
`str(content)` while computing `content_with_format` — propagate as
themselves. -/
theorem C8_fallback_repr_failure_raises_typeError (now : Nat) (e : PyErr)
    (strRes : Except PyErr String) :
    mkMessage now (.vobj (.error e) strRes) = .error .typeError := rfl

/-- C9: `as_str(sanitized=False)` on a message built from any string `s`
returns exactly `s`: `content_with_format` holds the kept-ends lines of
`s` and joining them reconstructs `s`. -/
theorem C9_as_str_roundtrip (now : Nat) (s : String) :
    (mkMessage now (.vstr s)).map (fun m => as_str m false) = .ok s := by
  rw [mkMessage_vstr]
  simp only [Except.map]
  simp [as_str, splitlinesKeep_join]

/-- C10: keyword arguments are applied by `setattr` after the core fields,
so a kwarg whose name collides with a core attribute (e.g. `author`)
overwrites the default on the constructed instance. (`content` is a
property routed to `_content`, hence the two exclusions.) -/
theorem C10_kwargs_overwrite_core_fields (now : Nat) (content : Value)
    (kwargs : List (String × Value)) (a : Attrs) (k : String) (v : Value)
    (h : mkMessageAttrs now content kwargs = .ok a)
    (hnd : (kwargs.map Prod.fst).Nodup)
    (hmem : (k, v) ∈ kwargs) (hk : k ≠ "content") (hc : k ≠ "_content") :
    getAttr a k = some v := by
  unfold mkMessageAttrs at h
  cases hset : pySetattr (initCoreAttrs now) "content" content with
  | error e => rw [hset] at h; cases h
  | ok a1 =>
    rw [hset] at h
    cases hs : pyStr content with
    | ok s =>
      rw [hs] at h
      exact applyKwargs_mem kwargs _ a k v h hnd hmem hk hc
    | error e =>
      rw [hs] at h
      cases e with
      | valueError => exact applyKwargs_mem kwargs _ a k v h hnd hmem hk hc
      | typeError => cases h
      | indexError => cases h
      | queueEmpty => cases h
      | runtimeError => cases h

/-- The attribute store produced in the C10 witness instance. -/
def attrsAuthorBob : Attrs :=
  [("author", Value.vstr "bob"),
   ("content_with_format", Value.vlist ((splitlinesKeep "None").map Value.vstr)),
   ("_content", Value.vlist [Value.vstr "None"]),
   ("client", Value.vnone),
   ("created", Value.vtime 0),
   ("author", Value.vstr "anonymous")]

theorem C10_kwargs_overwrite_core_fields_witness :
    mkMessageAttrs 0 .vnone [("author", Value.vstr "bob")] = .ok attrsAuthorBob ∧
    ([("author", Value.vstr "bob")].map Prod.fst).Nodup ∧
    ("author", Value.vstr "bob") ∈ [("author", Value.vstr "bob")] ∧
    "author" ≠ "content" ∧ "author" ≠ "_content" ∧
    getAttr attrsAuthorBob "author" = some (Value.vstr "bob") :=
  ⟨rfl, by simp, List.mem_cons_self _ _, by decide, by decide,
    C10_kwargs_overwrite_core_fields 0 .vnone [("author", Value.vstr "bob")]
      attrsAuthorBob "author" (Value.vstr "bob") rfl (by simp)
      (List.mem_cons_self _ _) (by decide) (by decide)⟩

end Pytman
